import Mathlib

/-!
Verification of the unmessy-email validation pipeline
(`src/services/email-validator.js`, `src/utils/csv-manager.js`).

Strings are embedded as `List Char` (`JStr`); the JavaScript string
operations used by the source (trim, toLowerCase, replace(/\s/g,''),
split, includes, endsWith) are translated to list functions below.
All functions are total: the JavaScript pipeline's "never throws"
behaviour corresponds to these definitions being ordinary Lean `def`s.
-/

namespace Unmessy

/-- JavaScript strings, embedded as lists of characters. -/
abbrev JStr := List Char

/-- Convert a Lean string literal into the embedding. -/
def str (s : String) : JStr := s.toList

/-- The whitespace characters matched by JavaScript `\s` and `trim()`
(restricted to ASCII, which is all the pipeline's inputs use). -/
def isSpaceChar (c : Char) : Bool :=
  c == ' ' || c == '\t' || c == '\n' || c == '\r' || c == '\x0b' || c == '\x0c'

/-- JavaScript `s.trim()`: drop leading and trailing whitespace. -/
def jsTrim (l : JStr) : JStr :=
  ((l.dropWhile isSpaceChar).reverse.dropWhile isSpaceChar).reverse

/-- The 26 ASCII upper/lower case pairs used by `toLowerCase()`. -/
def lowerPairs : List (Char × Char) :=
  [('A','a'), ('B','b'), ('C','c'), ('D','d'), ('E','e'), ('F','f'),
   ('G','g'), ('H','h'), ('I','i'), ('J','j'), ('K','k'), ('L','l'),
   ('M','m'), ('N','n'), ('O','o'), ('P','p'), ('Q','q'), ('R','r'),
   ('S','s'), ('T','t'), ('U','u'), ('V','v'), ('W','w'), ('X','x'),
   ('Y','y'), ('Z','z')]

/-- JavaScript `toLowerCase()` on one character (ASCII range). -/
def jsCharLower (c : Char) : Char :=
  match lowerPairs.find? (fun p => p.1 == c) with
  | some p => p.2
  | none => c

/-- JavaScript `s.toLowerCase()` (ASCII range). -/
def jsLower (l : JStr) : JStr := l.map jsCharLower

/-- JavaScript `s.replace(/\s/g, '')`: delete every whitespace character. -/
def removeSpaces (l : JStr) : JStr := l.filter (fun c => !(isSpaceChar c))

/-- JavaScript `s.split(sep)` for a one-character separator. -/
def splitOnChar (sep : Char) : JStr → List JStr
  | [] => [[]]
  | c :: rest =>
    let r := splitOnChar sep rest
    if c == sep then [] :: r
    else
      match r with
      | [] => [[c]]
      | h :: t => (c :: h) :: t

/-- `[a-zA-Z0-9]` of the source's email regex. -/
def isAlnumChar (c : Char) : Bool :=
  ('a' ≤ c && c ≤ 'z') || ('A' ≤ c && c ≤ 'Z') || ('0' ≤ c && c ≤ '9')

/-- The non-alphanumeric characters the source's regex allows in the
local part: `.!#$%&'*+/=?^_`{|}~-`. -/
def localSpecials : JStr := str ".!#$%&'*+/=?^_`{|}~-"

/-- One character of the regex's local-part character class. -/
def isLocalChar (c : Char) : Bool := isAlnumChar c || localSpecials.contains c

/-- An interior character of a DNS label: alphanumeric or hyphen. -/
def isLabelMidChar (c : Char) : Bool := isAlnumChar c || c == '-'

/-- One DNS label of the regex:
`[a-zA-Z0-9](?:[a-zA-Z0-9-]{0,61}[a-zA-Z0-9])?` —
alphanumeric first and last character, alphanumeric or hyphen inside,
at most 63 characters in all. -/
def isValidLabel (l : JStr) : Bool :=
  match l with
  | [] => false
  | c :: rest =>
    match rest.getLast? with
    | none => isAlnumChar c
    | some last =>
      isAlnumChar c && isAlnumChar last &&
      rest.dropLast.all isLabelMidChar && decide (rest.length + 1 ≤ 63)

/-- `EmailValidationService.isValidEmailFormat`: `!email` is false, and the
email matches the source's regex — a nonempty run of local-part characters,
one `@`, and a domain of one or more dot-separated valid labels.  Because
`@` occurs in neither character class, the regex is equivalent to this
split-based check. -/
def isValidEmailFormat (email : JStr) : Bool :=
  if email.isEmpty then false
  else
    match splitOnChar '@' email with
    | [lp, dom] =>
      !lp.isEmpty && lp.all isLocalChar &&
      (splitOnChar '.' dom).all isValidLabel
    | _ => false

/-- Modelled from the spec: `src/utils/domain-utils.js` is not in the
repository snapshot; the spec describes `DOMAIN_TYPOS` as a static
"mapping of known domain typos" applied by exact match
(e.g. "gmial.com" → "gmail.com"). -/
def DOMAIN_TYPOS : List (JStr × JStr) :=
  [(str "gmial.com", str "gmail.com"),
   (str "gamil.com", str "gmail.com"),
   (str "gmil.com",  str "gmail.com"),
   (str "hotmial.com", str "hotmail.com"),
   (str "yaho.com",  str "yahoo.com"),
   (str "outlok.com", str "outlook.com")]

/-- Modelled from the spec: `correctDomainTypos` from the absent
`src/utils/domain-utils.js` — "exact-match the domain portion against the
typo table; on match, replace".  Returns `(corrected, domain)` as the
source destructures it. -/
def correctDomainTypos (domain : JStr) : Bool × JStr :=
  match DOMAIN_TYPOS.find? (fun p => p.1 == domain) with
  | some p => (true, p.2)
  | none => (false, domain)

/-- Modelled from the spec: the `AUSTRALIAN_TLDS` table of the absent
`src/utils/domain-utils.js` — "mapping from an incorrect Australian
top-level-domain suffix to the corrected suffix". -/
def AUSTRALIAN_TLDS : List (JStr × JStr) :=
  [(str ".com,au", str ".com.au"),
   (str ".con.au", str ".com.au")]

/-- Modelled from the spec: `correctAustralianTLD` from the absent
`src/utils/domain-utils.js` — "exact-match the domain's suffix against
the TLD typo table; on match, replace". -/
def correctAustralianTLD (domain : JStr) : Bool × JStr :=
  match AUSTRALIAN_TLDS.find? (fun p => p.1.isSuffixOf domain) with
  | some p => (true, domain.take (domain.length - p.1.length) ++ p.2)
  | none => (false, domain)

/-- Modelled from the spec: `extractDomainFromEmail` from the absent
`src/utils/domain-utils.js` — the domain is "extracted by splitting on
'@' and taking the second segment; malformed input without exactly one
'@' yields not valid rather than throwing". -/
def extractDomainFromEmail (email : JStr) : Option JStr :=
  match splitOnChar '@' email with
  | [_, d] => some d
  | _ => none

/-- One row appended to a CSV file by `CSVManager`
(`addCorrectedEmail` / `addValidatedEmail`); the pipeline's persistent
write effects are collected into a list of these. -/
inductive CsvRecord
  | correctedEmail (original corrected : JStr) (correctionType : Option String)
  | validatedEmail (email : JStr) (source : String)
deriving DecidableEq, Repr

/-- The configuration flags read by the service
(`config.validation?.useZeroBounce`, `removeGmailAliases`,
`checkAustralianTlds`, and whether `zeroBounceApiKey` is set). -/
structure Config where
  useZeroBounce : Bool
  removeGmailAliases : Bool
  checkAustralianTlds : Bool
  hasZeroBounceApiKey : Bool
deriving DecidableEq, Repr

/-- The service's two in-memory lookup sets (`this.validDomains`,
`this.knownValidEmails`), embedded as lists with set-insertion. -/
structure ServiceState where
  validDomains : List JStr
  knownValidEmails : List JStr
deriving DecidableEq, Repr

/-- JavaScript `Set.add`: insert without duplication. -/
def setAdd (a : JStr) (l : List JStr) : List JStr :=
  if a ∈ l then l else a :: l

/-- Return value of `correctEmailTypos`:
`{corrected, email, correctionType}`. -/
structure CorrectionResult where
  corrected : Bool
  email : JStr
  correctionType : Option String
deriving DecidableEq, Repr

/-- `EmailValidationService.correctEmailTypos`, together with the list of
CSV rows it appends (the `csvManager.addCorrectedEmail` call).  Faithful
to the source's quirks: the whitespace flag is tested only after
`trim()`, the early return for a split yielding other than two parts
happens before the recorder call, the Gmail-alias branch rewrites the
email with `localPart.split('+')[0]`, and the Australian-TLD branch
rebuilds the email from the original local part. -/
def correctEmailTypos (cfg : Config) (email : JStr) :
    CorrectionResult × List CsvRecord :=
  if email.isEmpty then ({ corrected := false, email := email, correctionType := none }, [])
  else
    let t := jsLower (jsTrim email)
    let ns := removeSpaces t
    let corrected1 := ns != t
    let type1 : Option String := if ns != t then some "whitespace" else none
    match splitOnChar '@' ns with
    | [lp, dom] =>
      let dres := correctDomainTypos dom
      let effDom := if dres.1 then dres.2 else dom
      let corrected2 := if dres.1 then true else corrected1
      let type2 := if dres.1 then some "domain_typo" else type1
      let cleaned2 := if dres.1 then lp ++ '@' :: dres.2 else ns
      let gmailHit := cfg.removeGmailAliases && effDom == str "gmail.com" && lp.contains '+'
      let corrected3 := if gmailHit then true else corrected2
      let type3 := if gmailHit then some "gmail_alias" else type2
      let cleaned3 :=
        if gmailHit then (splitOnChar '+' lp).headI ++ '@' :: str "gmail.com"
        else cleaned2
      let tres := correctAustralianTLD effDom
      let tldHit := cfg.checkAustralianTlds && tres.1
      let corrected4 := if tldHit then true else corrected3
      let type4 := if tldHit then some "tld" else type3
      let cleaned4 := if tldHit then lp ++ '@' :: tres.2 else cleaned3
      let recs := if corrected4 then [CsvRecord.correctedEmail email cleaned4 type4] else []
      ({ corrected := corrected4, email := cleaned4, correctionType := type4 }, recs)
    | _ => ({ corrected := corrected1, email := ns, correctionType := type1 }, [])

/-- `EmailValidationService.isKnownValidEmail`:
`this.knownValidEmails.has(email.toLowerCase())`. -/
def isKnownValidEmail (st : ServiceState) (email : JStr) : Bool :=
  st.knownValidEmails.contains (jsLower email)

/-- `EmailValidationService.isValidDomain`: extract the domain, treat a
missing or empty domain as invalid, and test
`this.validDomains.has(domain.toLowerCase())`. -/
def isValidDomain (st : ServiceState) (email : JStr) : Bool :=
  match extractDomainFromEmail email with
  | none => false
  | some d => if d.isEmpty then false else st.validDomains.contains (jsLower d)

/-- The body of a successful ZeroBounce HTTP response, as consumed by the
source (`result.status`, `result.sub_status`). -/
structure ZBData where
  status : String
  subStatus : Option String
deriving DecidableEq, Repr

/-- Behaviour of the external ZeroBounce call: either a response body or
a thrown error (network failure etc.). -/
abbrev ZBNet := Except String ZBData

/-- Result object returned by `checkWithZeroBounce`. -/
structure ZBResult where
  email : JStr
  status : String
  subStatus : Option String
  recheckNeeded : Bool
  error : Option String
deriving DecidableEq, Repr

/-- `checkWithZeroBounce` paired with its state update and CSV writes. -/
structure ZBOut where
  result : ZBResult
  state : ServiceState
  records : List CsvRecord
deriving DecidableEq, Repr

/-- The source's `switch (result.status)` mapping a ZeroBounce status
string to `(status, subStatus, recheckNeeded)`; the default arm yields
`check_failed`. -/
def mapZBStatus (s : String) (sub : Option String) : String × Option String × Bool :=
  if s = "valid" then ("valid", none, false)
  else if s = "invalid" then ("invalid", sub, false)
  else if s = "catch-all" then ("unknown", none, true)
  else if s = "unknown" then ("unknown", none, true)
  else if s = "spamtrap" then ("invalid", some "spamtrap", false)
  else if s = "abuse" then ("invalid", some "abuse", false)
  else ("check_failed", none, true)

/-- `EmailValidationService.checkWithZeroBounce`.  The surrounding
`try/catch` makes the function total: a missing API key (the source's own
`throw`) and a failed HTTP call both land in the catch branch, which
returns `status='check_failed'`, `recheckNeeded=true` with the error
message.  On `status='valid'` the email is persisted
(`addValidatedEmail`, which lower-cases it) and added lower-cased to the
in-memory known-valid set. -/
def checkWithZeroBounce (cfg : Config) (st : ServiceState) (email : JStr)
    (net : ZBNet) : ZBOut :=
  if !cfg.hasZeroBounceApiKey then
    { result := { email := email, status := "check_failed", subStatus := none,
                  recheckNeeded := true,
                  error := some "ZeroBounce API key not configured" },
      state := st, records := [] }
  else
    match net with
    | .error msg =>
      { result := { email := email, status := "check_failed", subStatus := none,
                    recheckNeeded := true, error := some msg },
        state := st, records := [] }
    | .ok data =>
      let m := mapZBStatus data.status data.subStatus
      if m.1 = "valid" then
        { result := { email := email, status := m.1, subStatus := m.2.1,
                      recheckNeeded := m.2.2, error := none },
          state := { st with knownValidEmails := setAdd (jsLower email) st.knownValidEmails },
          records := [CsvRecord.validatedEmail (jsLower email) "zerobounce"] }
      else
        { result := { email := email, status := m.1, subStatus := m.2.1,
                      recheckNeeded := m.2.2, error := none },
          state := st, records := [] }

/-- One entry of `result.validationSteps`, with the fields the source
pushes for each step. -/
inductive StepRecord
  | format_check (passed : Bool)
  | typo_correction (applied : Bool) (correctionType : Option String)
      (original corrected : JStr)
  | known_valid_check (passed : Bool)
  | domain_check (passed : Bool)
  | zerobounce_check (result : ZBResult)
deriving DecidableEq, Repr

/-- The result object built by `validateEmail`. -/
structure ValidationResult where
  originalEmail : JStr
  currentEmail : JStr
  formatValid : Bool
  wasCorrected : Bool
  isKnownValid : Bool
  domainValid : Bool
  status : String
  subStatus : Option String
  recheckNeeded : Bool
  validationSteps : List StepRecord
deriving DecidableEq, Repr

/-- `validateEmail` paired with the service state it leaves behind and
the CSV rows written during the call. -/
structure ValidateOut where
  result : ValidationResult
  state : ServiceState
  records : List CsvRecord
deriving DecidableEq, Repr

/-- `EmailValidationService.validateEmail`: format check (short-circuits
to `invalid`/`bad_format`), typo correction, known-valid check
(short-circuits to `valid`), domain check, then either the ZeroBounce
call or the domain-only fallback `status = domainValid ? 'unknown' :
'invalid'; recheckNeeded = domainValid` — which, as in the source,
pushes no step record of its own. -/
def validateEmail (cfg : Config) (st : ServiceState) (email : JStr)
    (net : ZBNet) : ValidateOut :=
  if isValidEmailFormat email then
    let co := correctEmailTypos cfg email
    let corr := co.1
    let steps2 := [StepRecord.format_check true,
                   StepRecord.typo_correction corr.corrected corr.correctionType email corr.email]
    let known := isKnownValidEmail st corr.email
    let steps3 := steps2 ++ [StepRecord.known_valid_check known]
    if known then
      { result := { originalEmail := email, currentEmail := corr.email,
                    formatValid := true, wasCorrected := corr.corrected,
                    isKnownValid := true, domainValid := false,
                    status := "valid", subStatus := none,
                    recheckNeeded := false, validationSteps := steps3 },
        state := st, records := co.2 }
    else
      let dv := isValidDomain st corr.email
      let steps4 := steps3 ++ [StepRecord.domain_check dv]
      if cfg.useZeroBounce then
        let zb := checkWithZeroBounce cfg st corr.email net
        { result := { originalEmail := email, currentEmail := corr.email,
                      formatValid := true, wasCorrected := corr.corrected,
                      isKnownValid := false, domainValid := dv,
                      status := zb.result.status, subStatus := zb.result.subStatus,
                      recheckNeeded := zb.result.recheckNeeded,
                      validationSteps := steps4 ++ [StepRecord.zerobounce_check zb.result] },
          state := zb.state, records := co.2 ++ zb.records }
      else
        { result := { originalEmail := email, currentEmail := corr.email,
                      formatValid := true, wasCorrected := corr.corrected,
                      isKnownValid := false, domainValid := dv,
                      status := if dv then "unknown" else "invalid",
                      subStatus := none, recheckNeeded := dv,
                      validationSteps := steps4 },
          state := st, records := co.2 }
  else
    { result := { originalEmail := email, currentEmail := email,
                  formatValid := false, wasCorrected := false,
                  isKnownValid := false, domainValid := false,
                  status := "invalid", subStatus := some "bad_format",
                  recheckNeeded := false,
                  validationSteps := [StepRecord.format_check false] },
      state := st, records := [] }

/-- The minimal failure object `validateBatch` pushes when a single
validation throws. -/
structure MinimalFailure where
  originalEmail : JStr
  currentEmail : JStr
  status : String
  error : String
deriving DecidableEq, Repr

/-- One element of `validateBatch`'s results array. -/
inductive BatchEntry
  | ok (r : ValidationResult)
  | failed (m : MinimalFailure)
deriving DecidableEq, Repr

/-- The `originalEmail` field of a batch entry. -/
def BatchEntry.original : BatchEntry → JStr
  | .ok r => r.originalEmail
  | .failed m => m.originalEmail

/-- `EmailValidationService.validateBatch`, parameterised by the
behaviour `v` of one `validateEmail` call (which may throw, `Except`);
the loop's `try/catch` turns a throw into a pushed minimal failure
record `{originalEmail, currentEmail, status:'check_failed', error}` and
continues with the next email. -/
def validateBatch (v : JStr → ServiceState → Except String ValidateOut) :
    List JStr → ServiceState → List BatchEntry × ServiceState
  | [], st => ([], st)
  | e :: rest, st =>
    match v e st with
    | .ok out =>
      let tail := validateBatch v rest out.state
      (BatchEntry.ok out.result :: tail.1, tail.2)
    | .error msg =>
      let tail := validateBatch v rest st
      (BatchEntry.failed ⟨e, e, "check_failed", msg⟩ :: tail.1, tail.2)

/-- The six seed domains added by `CSVManager.loadValidDomains` before
reading the CSV. -/
def seedDomains : List JStr :=
  [str "gmail.com", str "outlook.com", str "hotmail.com",
   str "yahoo.com", str "icloud.com", str "aol.com"]

/-- `CSVManager.loadValidDomains`: seed domains plus each nonempty CSV
`domain` cell, trimmed and lower-cased, collected into a set. -/
def loadValidDomains (rows : List JStr) : List JStr :=
  rows.foldl (fun acc d => if d.isEmpty then acc else setAdd (jsLower (jsTrim d)) acc)
    seedDomains

/-- `CSVManager.loadValidatedEmails`: each nonempty CSV `email` cell,
trimmed and lower-cased, collected into a set. -/
def loadValidatedEmails (rows : List JStr) : List JStr :=
  rows.foldl (fun acc e => if e.isEmpty then acc else setAdd (jsLower (jsTrim e)) acc)
    []

end Unmessy

namespace Unmessy

example : isValidEmailFormat (str "john@gmail.com") = true := by decide
example : isValidEmailFormat (str "") = false := by decide
example : isValidEmailFormat (str "bad") = false := by decide
example : isValidEmailFormat (str "a@b@c.com") = false := by decide
example : isValidEmailFormat (str "+tag@gmail.com") = true := by decide
example : isValidEmailFormat (str "@gmail.com") = false := by decide
example : isValidEmailFormat (str "a@-b.com") = false := by decide

/-! ### Helper lemmas about the embedded string operations -/

theorem jsCharLower_of_find?_none {c : Char}
    (h : lowerPairs.find? (fun p => p.1 == c) = none) : jsCharLower c = c := by
  unfold jsCharLower; rw [h]

theorem jsCharLower_of_find?_some {c : Char} {p : Char × Char}
    (h : lowerPairs.find? (fun q => q.1 == c) = some p) : jsCharLower c = p.2 := by
  unfold jsCharLower; rw [h]

theorem lowerPairs_snd_not_key :
    ∀ p ∈ lowerPairs, ∀ q ∈ lowerPairs, (q.1 == p.2) = false := by decide

/-- ASCII lower-casing is idempotent. -/
theorem jsCharLower_idem (c : Char) : jsCharLower (jsCharLower c) = jsCharLower c := by
  cases h : lowerPairs.find? (fun p => p.1 == c) with
  | none => simp only [jsCharLower_of_find?_none h]
  | some p =>
    rw [jsCharLower_of_find?_some h]
    have hp : p ∈ lowerPairs := List.mem_of_find?_eq_some h
    have hnone : lowerPairs.find? (fun q => q.1 == p.2) = none := by
      apply List.find?_eq_none.mpr
      intro q hq
      simp [lowerPairs_snd_not_key p hp q hq]
    rw [jsCharLower_of_find?_none hnone]

theorem jsLower_idem (l : JStr) : jsLower (jsLower l) = jsLower l := by
  unfold jsLower
  rw [List.map_map]
  exact List.map_congr_left fun c _ => jsCharLower_idem c

/-- Lower-casing neither produces nor destroys an `@`. -/
theorem jsCharLower_beq_at (c : Char) : (jsCharLower c == '@') = (c == '@') := by
  cases h : lowerPairs.find? (fun p => p.1 == c) with
  | none => rw [jsCharLower_of_find?_none h]
  | some p =>
    rw [jsCharLower_of_find?_some h]
    have hp : p ∈ lowerPairs := List.mem_of_find?_eq_some h
    have hc := List.find?_some h
    have hc' : c = p.1 := by
      simp only [beq_iff_eq] at hc
      exact hc.symm
    have hkeys : ∀ q ∈ lowerPairs, (q.2 == '@') = false ∧ (q.1 == '@') = false := by decide
    rw [hc', (hkeys p hp).1, (hkeys p hp).2]

theorem splitOnChar_ne_nil (sep : Char) (l : JStr) : splitOnChar sep l ≠ [] := by
  induction l with
  | nil => simp [splitOnChar]
  | cons c rest ih =>
    unfold splitOnChar
    by_cases h : (c == sep) = true
    · simp [h]
    · simp only [h]
      cases hr : splitOnChar sep rest with
      | nil => simp
      | cons a t => simp

/-- `split` commutes with lower-casing when splitting on `@`. -/
theorem splitOnChar_at_jsLower (l : JStr) :
    splitOnChar '@' (jsLower l) = (splitOnChar '@' l).map jsLower := by
  induction l with
  | nil => simp [splitOnChar, jsLower]
  | cons c rest ih =>
    show splitOnChar '@' (jsCharLower c :: jsLower rest) = _
    unfold splitOnChar
    rw [ih, jsCharLower_beq_at]
    by_cases h : (c == '@') = true
    · simp [h, jsLower]
    · simp only [h, if_false, Bool.false_eq_true]
      cases hr : splitOnChar '@' rest with
      | nil => exact absurd hr (splitOnChar_ne_nil '@' rest)
      | cons a t => simp [jsLower]

/-- The number of pieces `split` returns is the separator count plus one. -/
theorem splitOnChar_length (sep : Char) (l : JStr) :
    (splitOnChar sep l).length = l.count sep + 1 := by
  induction l with
  | nil => simp [splitOnChar]
  | cons c rest ih =>
    unfold splitOnChar
    rw [List.count_cons]
    by_cases h : (c == sep) = true
    · simp [h, ih]
    · simp only [h, if_false, Bool.false_eq_true]
      cases hr : splitOnChar sep rest with
      | nil => exact absurd hr (splitOnChar_ne_nil sep rest)
      | cons a t =>
        have := ih
        rw [hr] at this
        simp only [List.length_cons] at this ⊢
        simp [h, this]

/-- Every character of a piece of a split is a character of the input. -/
theorem mem_of_mem_splitOnChar {sep : Char} {l p : JStr} {x : Char}
    (hp : p ∈ splitOnChar sep l) (hx : x ∈ p) : x ∈ l := by
  induction l generalizing p with
  | nil =>
    simp [splitOnChar] at hp
    subst hp
    exact absurd hx (List.not_mem_nil x)
  | cons c rest ih =>
    unfold splitOnChar at hp
    by_cases h : (c == sep) = true
    · rw [if_pos h] at hp
      rcases List.mem_cons.mp hp with h1 | h1
      · subst h1; exact absurd hx (List.not_mem_nil x)
      · exact List.mem_cons_of_mem c (ih h1 hx)
    · rw [if_neg h] at hp
      cases hr : splitOnChar sep rest with
      | nil => exact absurd hr (splitOnChar_ne_nil sep rest)
      | cons a t =>
        rw [hr] at hp
        rcases List.mem_cons.mp hp with h1 | h1
        · subst h1
          rcases List.mem_cons.mp hx with h2 | h2
          · subst h2; exact List.mem_cons_self x rest
          · have ha : a ∈ splitOnChar sep rest := by
              rw [hr]; exact List.mem_cons_self a t
            exact List.mem_cons_of_mem c (ih ha h2)
        · have hpr : p ∈ splitOnChar sep rest := by
            rw [hr]; exact List.mem_cons_of_mem a h1
          exact List.mem_cons_of_mem c (ih hpr hx)

theorem removeSpaces_no_space {l : JStr} {x : Char} (hx : x ∈ removeSpaces l) :
    isSpaceChar x = false := by
  have := List.of_mem_filter hx
  simpa using this

theorem setAdd_subset (a : JStr) (l : List JStr) : l ⊆ setAdd a l := by
  unfold setAdd
  by_cases h : a ∈ l
  · simp [h]
  · simp only [h, if_false]
    exact fun x hx => List.mem_cons_of_mem a hx

theorem mem_setAdd {a x : JStr} {l : List JStr} (hx : x ∈ setAdd a l) :
    x = a ∨ x ∈ l := by
  unfold setAdd at hx
  by_cases h : a ∈ l
  · simp [h] at hx; exact Or.inr hx
  · simp only [h, if_false] at hx
    exact List.mem_cons.mp hx

theorem validateEmail_originalEmail (cfg : Config) (st : ServiceState)
    (email : JStr) (net : ZBNet) :
    (validateEmail cfg st email net).result.originalEmail = email := by
  simp only [validateEmail]
  repeat' split
  all_goals rfl

/-! ### Claim theorems -/

/-- C1: for every input failing the email format grammar, `validateEmail`
returns status `invalid`, subStatus `bad_format`, `recheckNeeded = false`,
a single-entry `validationSteps`, leaves the lookup sets untouched and
writes no correction or lookup record. -/
theorem validateEmail_bad_format (cfg : Config) (st : ServiceState)
    (email : JStr) (net : ZBNet) (h : isValidEmailFormat email = false) :
    (validateEmail cfg st email net).result.status = "invalid" ∧
    (validateEmail cfg st email net).result.subStatus = some "bad_format" ∧
    (validateEmail cfg st email net).result.recheckNeeded = false ∧
    (validateEmail cfg st email net).result.validationSteps
      = [StepRecord.format_check false] ∧
    (validateEmail cfg st email net).records = [] ∧
    (validateEmail cfg st email net).state = st := by
  simp [validateEmail, h]

/-- Witness for C1 at the concrete non-email input `"not-an-email"`. -/
theorem validateEmail_bad_format_witness :
    isValidEmailFormat (str "not-an-email") = false ∧
    ((validateEmail ⟨false, true, true, false⟩ ⟨seedDomains, []⟩
        (str "not-an-email") (Except.error "net")).result.status = "invalid" ∧
     (validateEmail ⟨false, true, true, false⟩ ⟨seedDomains, []⟩
        (str "not-an-email") (Except.error "net")).result.subStatus = some "bad_format" ∧
     (validateEmail ⟨false, true, true, false⟩ ⟨seedDomains, []⟩
        (str "not-an-email") (Except.error "net")).result.recheckNeeded = false ∧
     (validateEmail ⟨false, true, true, false⟩ ⟨seedDomains, []⟩
        (str "not-an-email") (Except.error "net")).result.validationSteps
        = [StepRecord.format_check false] ∧
     (validateEmail ⟨false, true, true, false⟩ ⟨seedDomains, []⟩
        (str "not-an-email") (Except.error "net")).records = [] ∧
     (validateEmail ⟨false, true, true, false⟩ ⟨seedDomains, []⟩
        (str "not-an-email") (Except.error "net")).state = ⟨seedDomains, []⟩) :=
  ⟨by decide, validateEmail_bad_format _ _ _ _ (by decide)⟩

/-- C5: a format-valid input whose corrected form is known valid makes
`validateEmail` terminate at the known-valid check with status `valid`,
`recheckNeeded = false`, a three-entry step list (no domain-check step),
and a result independent of the deliverability service's behaviour. -/
theorem validateEmail_known_valid (cfg : Config) (st : ServiceState)
    (email : JStr) (net : ZBNet) (hf : isValidEmailFormat email = true)
    (hk : isKnownValidEmail st (correctEmailTypos cfg email).1.email = true) :
    (validateEmail cfg st email net).result.status = "valid" ∧
    (validateEmail cfg st email net).result.recheckNeeded = false ∧
    (validateEmail cfg st email net).result.validationSteps =
      [StepRecord.format_check true,
       StepRecord.typo_correction (correctEmailTypos cfg email).1.corrected
         (correctEmailTypos cfg email).1.correctionType email
         (correctEmailTypos cfg email).1.email,
       StepRecord.known_valid_check true] ∧
    (∀ net2 : ZBNet, validateEmail cfg st email net2 = validateEmail cfg st email net) := by
  refine ⟨?_, ?_, ?_, ?_⟩ <;> simp [validateEmail, hf, hk]

/-- Witness for C5 with `a@b.com` pre-seeded in the known-valid set. -/
theorem validateEmail_known_valid_witness :
    isValidEmailFormat (str "a@b.com") = true ∧
    isKnownValidEmail ⟨seedDomains, [str "a@b.com"]⟩
      (correctEmailTypos ⟨false, true, true, false⟩ (str "a@b.com")).1.email = true ∧
    ((validateEmail ⟨false, true, true, false⟩ ⟨seedDomains, [str "a@b.com"]⟩
        (str "a@b.com") (Except.error "net")).result.status = "valid" ∧
     (validateEmail ⟨false, true, true, false⟩ ⟨seedDomains, [str "a@b.com"]⟩
        (str "a@b.com") (Except.error "net")).result.recheckNeeded = false) :=
  ⟨by decide, by decide,
   ⟨(validateEmail_known_valid _ _ _ _ (by decide) (by decide)).1,
    (validateEmail_known_valid _ _ _ _ (by decide) (by decide)).2.1⟩⟩

/-- C4: with deliverability checking disabled, a format-valid input that
is not known valid gets `status = domainValid ? "unknown" : "invalid"`
and `recheckNeeded = domainValid`, where `domainValid` tests the
corrected email's domain against the valid-domain set. -/
theorem validateEmail_domain_fallback (cfg : Config) (st : ServiceState)
    (email : JStr) (net : ZBNet) (hz : cfg.useZeroBounce = false)
    (hf : isValidEmailFormat email = true)
    (hk : isKnownValidEmail st (correctEmailTypos cfg email).1.email = false) :
    (validateEmail cfg st email net).result.status =
      (if isValidDomain st (correctEmailTypos cfg email).1.email
       then "unknown" else "invalid") ∧
    (validateEmail cfg st email net).result.recheckNeeded =
      isValidDomain st (correctEmailTypos cfg email).1.email := by
  constructor <;> simp [validateEmail, hz, hf, hk]

/-- Witness for C4: `x@gmail.com` (seeded domain) gives `unknown`, and
`x@zzz.zzz` (unknown domain) gives `invalid`. -/
theorem validateEmail_domain_fallback_witness :
    isValidEmailFormat (str "x@gmail.com") = true ∧
    isKnownValidEmail ⟨seedDomains, []⟩
      (correctEmailTypos ⟨false, true, true, false⟩ (str "x@gmail.com")).1.email = false ∧
    ((validateEmail ⟨false, true, true, false⟩ ⟨seedDomains, []⟩
        (str "x@gmail.com") (Except.error "net")).result.status =
      (if isValidDomain ⟨seedDomains, []⟩
          (correctEmailTypos ⟨false, true, true, false⟩ (str "x@gmail.com")).1.email
       then "unknown" else "invalid") ∧
     (validateEmail ⟨false, true, true, false⟩ ⟨seedDomains, []⟩
        (str "x@gmail.com") (Except.error "net")).result.recheckNeeded =
      isValidDomain ⟨seedDomains, []⟩
        (correctEmailTypos ⟨false, true, true, false⟩ (str "x@gmail.com")).1.email) :=
  ⟨by decide, by decide,
   validateEmail_domain_fallback _ _ _ _ (by decide) (by decide) (by decide)⟩

/-- C2 counterexample: with deliverability checking disabled, the
format-valid input `x@gmail.com` produces exactly the four step records of
steps 1–4 — no alternative step record for the deliverability decision is
appended, contradicting the claim. -/
theorem validateEmail_no_alt_step_counterexample :
    (validateEmail ⟨false, true, true, false⟩ ⟨seedDomains, []⟩
        (str "x@gmail.com") (Except.error "net")).result.validationSteps =
      [StepRecord.format_check true,
       StepRecord.typo_correction false none (str "x@gmail.com") (str "x@gmail.com"),
       StepRecord.known_valid_check false,
       StepRecord.domain_check true] ∧
    isValidEmailFormat (str "x@gmail.com") = true ∧
    (validateEmail ⟨false, true, true, false⟩ ⟨seedDomains, []⟩
        (str "x@gmail.com") (Except.error "net")).result.status = "unknown" := by
  decide

/-- C2 (amended): with deliverability checking disabled, a format-valid,
not-known-valid input yields exactly the four step records of steps 1–4;
the domain-only deliverability decision appends no step record and is
reflected only in `status`/`recheckNeeded`. -/
theorem validateEmail_disabled_steps (cfg : Config) (st : ServiceState)
    (email : JStr) (net : ZBNet) (hz : cfg.useZeroBounce = false)
    (hf : isValidEmailFormat email = true)
    (hk : isKnownValidEmail st (correctEmailTypos cfg email).1.email = false) :
    (validateEmail cfg st email net).result.validationSteps =
      [StepRecord.format_check true,
       StepRecord.typo_correction (correctEmailTypos cfg email).1.corrected
         (correctEmailTypos cfg email).1.correctionType email
         (correctEmailTypos cfg email).1.email,
       StepRecord.known_valid_check false,
       StepRecord.domain_check (isValidDomain st (correctEmailTypos cfg email).1.email)] := by
  simp [validateEmail, hz, hf, hk]

/-- Witness for the amended C2 at the concrete input `x@gmail.com`. -/
theorem validateEmail_disabled_steps_witness :
    (validateEmail ⟨false, true, true, false⟩ ⟨seedDomains, []⟩
        (str "x@gmail.com") (Except.error "net")).result.validationSteps =
      [StepRecord.format_check true,
       StepRecord.typo_correction
         (correctEmailTypos ⟨false, true, true, false⟩ (str "x@gmail.com")).1.corrected
         (correctEmailTypos ⟨false, true, true, false⟩ (str "x@gmail.com")).1.correctionType
         (str "x@gmail.com")
         (correctEmailTypos ⟨false, true, true, false⟩ (str "x@gmail.com")).1.email,
       StepRecord.known_valid_check false,
       StepRecord.domain_check (isValidDomain ⟨seedDomains, []⟩
         (correctEmailTypos ⟨false, true, true, false⟩ (str "x@gmail.com")).1.email)] :=
  validateEmail_disabled_steps _ _ _ _ (by decide) (by decide) (by decide)

/-- C10: with `removeGmailAliases` enabled, validating `+tag@gmail.com`
reports `formatValid = true` while gmail-alias stripping truncates the
local part at the first `+` to the empty string, so `currentEmail`
becomes `@gmail.com`, which fails the format grammar. -/
theorem validateEmail_gmail_alias_breaks_format :
    (validateEmail ⟨false, true, true, false⟩ ⟨seedDomains, []⟩
        (str "+tag@gmail.com") (Except.error "net")).result.formatValid = true ∧
    (validateEmail ⟨false, true, true, false⟩ ⟨seedDomains, []⟩
        (str "+tag@gmail.com") (Except.error "net")).result.currentEmail = str "@gmail.com" ∧
    (correctEmailTypos ⟨false, true, true, false⟩
        (str "+tag@gmail.com")).1.correctionType = some "gmail_alias" ∧
    isValidEmailFormat (str "@gmail.com") = false := by
  decide

/-- C6: every failure of the deliverability check — missing API key, a
thrown network error, or an unanticipated response status string — is
caught and returned as `status = "check_failed"`, `recheckNeeded = true`.
(`checkWithZeroBounce` is a total function: no exception reaches the
pipeline.) -/
theorem checkWithZeroBounce_failures (cfg : Config) (st : ServiceState)
    (email : JStr) (net : ZBNet)
    (h : cfg.hasZeroBounceApiKey = false ∨ (∃ msg, net = Except.error msg) ∨
         (∃ d, net = Except.ok d ∧
           d.status ∉ (["valid", "invalid", "catch-all", "unknown",
                        "spamtrap", "abuse"] : List String))) :
    (checkWithZeroBounce cfg st email net).result.status = "check_failed" ∧
    (checkWithZeroBounce cfg st email net).result.recheckNeeded = true := by
  rcases h with h | ⟨msg, rfl⟩ | ⟨d, rfl, hd⟩
  · simp [checkWithZeroBounce, h]
  · cases hk : cfg.hasZeroBounceApiKey <;> simp [checkWithZeroBounce, hk]
  · cases hk : cfg.hasZeroBounceApiKey
    · simp [checkWithZeroBounce, hk]
    · simp only [List.mem_cons, List.not_mem_nil, or_false, not_or] at hd
      obtain ⟨h1, h2, h3, h4, h5, h6⟩ := hd
      simp [checkWithZeroBounce, hk, mapZBStatus, h1, h2, h3, h4, h5, h6]

/-- Witness for C6: a missing API key and, separately, a network error
and an unanticipated status string all yield `check_failed`. -/
theorem checkWithZeroBounce_failures_witness :
    ((⟨true, true, true, false⟩ : Config).hasZeroBounceApiKey = false ∨
     (∃ msg, (Except.error "net down" : ZBNet) = Except.error msg) ∨
     (∃ d, (Except.error "net down" : ZBNet) = Except.ok d ∧
       d.status ∉ (["valid", "invalid", "catch-all", "unknown",
                    "spamtrap", "abuse"] : List String))) ∧
    (checkWithZeroBounce ⟨true, true, true, false⟩ ⟨seedDomains, []⟩
        (str "x@gmail.com") (Except.error "net down")).result.status = "check_failed" ∧
    (checkWithZeroBounce ⟨true, true, true, false⟩ ⟨seedDomains, []⟩
        (str "x@gmail.com") (Except.error "net down")).result.recheckNeeded = true :=
  ⟨Or.inl rfl,
   (checkWithZeroBounce_failures _ _ _ _ (Or.inl rfl)).1,
   (checkWithZeroBounce_failures _ _ _ _ (Or.inl rfl)).2⟩

/-- Whether a batch entry that replaced a throwing validation is the
minimal `check_failed` failure record. -/
def entryMinimalFailed : BatchEntry → Prop
  | .ok _ => True
  | .failed m => m.status = "check_failed" ∧ m.currentEmail = m.originalEmail

/-- C7: `validateBatch` returns one entry per input in input order; an
entry whose validation threw is the minimal failure record with
`status = "check_failed"` carrying the error detail, and the remaining
emails are still validated.  `v` is the behaviour of one `validateEmail`
call, which on success reports its input as `originalEmail`. -/
theorem validateBatch_order (v : JStr → ServiceState → Except String ValidateOut)
    (hv : ∀ e st out, v e st = Except.ok out → out.result.originalEmail = e)
    (emails : List JStr) (st : ServiceState) :
    (validateBatch v emails st).1.length = emails.length ∧
    List.Forall₂ (fun e ent => BatchEntry.original ent = e ∧ entryMinimalFailed ent)
      emails (validateBatch v emails st).1 := by
  induction emails generalizing st with
  | nil => simp [validateBatch]
  | cons e rest ih =>
    unfold validateBatch
    cases hv' : v e st with
    | ok out =>
      have h1 := ih out.state
      refine ⟨by simp [h1.1], ?_⟩
      exact List.Forall₂.cons ⟨hv e st out hv', trivial⟩ h1.2
    | error msg =>
      have h1 := ih st
      refine ⟨by simp [h1.1], ?_⟩
      exact List.Forall₂.cons ⟨rfl, rfl, rfl⟩ h1.2

/-- Witness for C7: a three-email batch whose middle validation throws
returns three entries in order, the middle one a minimal
`check_failed` record. -/
theorem validateBatch_order_witness :
    (validateBatch
        (fun e st => if e = str "boom" then Except.error "exploded"
          else Except.ok (validateEmail ⟨false, true, true, false⟩ st e (Except.error "net")))
        [str "a@gmail.com", str "boom", str "c@gmail.com"] ⟨seedDomains, []⟩).1.length = 3 ∧
    List.Forall₂ (fun e ent => BatchEntry.original ent = e ∧ entryMinimalFailed ent)
      [str "a@gmail.com", str "boom", str "c@gmail.com"]
      (validateBatch
        (fun e st => if e = str "boom" then Except.error "exploded"
          else Except.ok (validateEmail ⟨false, true, true, false⟩ st e (Except.error "net")))
        [str "a@gmail.com", str "boom", str "c@gmail.com"] ⟨seedDomains, []⟩).1 :=
  validateBatch_order _
    (fun e st out h => by
      by_cases he : e = str "boom"
      · rw [if_pos he] at h; exact absurd h (by simp)
      · rw [if_neg he] at h
        have : validateEmail ⟨false, true, true, false⟩ st e (Except.error "net") = out :=
          by injection h
        rw [← this]
        exact validateEmail_originalEmail _ _ _ _)
    _ _

/-- C9: when the trimmed, lower-cased, whitespace-stripped email does not
split into exactly two parts on `@` (zero or several `@`s), the corrector
returns it with only whitespace/case normalisation applied: no further
rule fires, the correction type stays `none` or `whitespace`, and no
correction record is written.  Totality of `correctEmailTypos` is the
"never throws" half of the claim. -/
theorem correctEmailTypos_not_two_parts (cfg : Config) (email : JStr)
    (h : (removeSpaces (jsLower (jsTrim email))).count '@' ≠ 1) :
    (correctEmailTypos cfg email).1.email = removeSpaces (jsLower (jsTrim email)) ∧
    ((correctEmailTypos cfg email).1.correctionType = none ∨
     (correctEmailTypos cfg email).1.correctionType = some "whitespace") ∧
    (correctEmailTypos cfg email).2 = [] := by
  cases email with
  | nil => exact ⟨rfl, Or.inl rfl, rfl⟩
  | cons c cs =>
    rcases hsp : splitOnChar '@' (removeSpaces (jsLower (jsTrim (c :: cs))))
      with _ | ⟨lp, _ | ⟨dom, _ | ⟨y, rest⟩⟩⟩
    · exact absurd hsp (splitOnChar_ne_nil _ _)
    · refine ⟨?_, ?_, ?_⟩
      · simp [correctEmailTypos, hsp]
      · by_cases hw : (removeSpaces (jsLower (jsTrim (c :: cs)))
            != jsLower (jsTrim (c :: cs))) = true
        · exact Or.inr (by simp [correctEmailTypos, hsp, hw])
        · exact Or.inl (by simp [correctEmailTypos, hsp]; simp at hw; simp [hw])
      · simp [correctEmailTypos, hsp]
    · exfalso
      have hl := splitOnChar_length '@' (removeSpaces (jsLower (jsTrim (c :: cs))))
      rw [hsp] at hl
      simp only [List.length_cons, List.length_nil] at hl
      omega
    · refine ⟨?_, ?_, ?_⟩
      · simp [correctEmailTypos, hsp]
      · by_cases hw : (removeSpaces (jsLower (jsTrim (c :: cs)))
            != jsLower (jsTrim (c :: cs))) = true
        · exact Or.inr (by simp [correctEmailTypos, hsp, hw])
        · exact Or.inl (by simp [correctEmailTypos, hsp]; simp at hw; simp [hw])
      · simp [correctEmailTypos, hsp]

/-- Witness for C9 at the double-`@` input `a@b@c.com`. -/
theorem correctEmailTypos_not_two_parts_witness :
    (removeSpaces (jsLower (jsTrim (str "a@b@c.com")))).count '@' ≠ 1 ∧
    ((correctEmailTypos ⟨false, true, true, false⟩ (str "a@b@c.com")).1.email =
       removeSpaces (jsLower (jsTrim (str "a@b@c.com"))) ∧
     ((correctEmailTypos ⟨false, true, true, false⟩ (str "a@b@c.com")).1.correctionType = none ∨
      (correctEmailTypos ⟨false, true, true, false⟩ (str "a@b@c.com")).1.correctionType =
        some "whitespace") ∧
     (correctEmailTypos ⟨false, true, true, false⟩ (str "a@b@c.com")).2 = []) :=
  ⟨by decide, correctEmailTypos_not_two_parts _ _ (by decide)⟩

/-- C3 counterexample: the input `" a@b.com"` is changed by whitespace
removal, yet the corrector reports `corrected = false` with no correction
type, because `trim()` runs before the whitespace-change test. -/
theorem correctEmailTypos_trim_only_counterexample :
    str " a@b.com" ≠ str "a@b.com" ∧
    (correctEmailTypos ⟨false, true, true, false⟩ (str " a@b.com")).1.email = str "a@b.com" ∧
    (correctEmailTypos ⟨false, true, true, false⟩ (str " a@b.com")).1.corrected = false ∧
    (correctEmailTypos ⟨false, true, true, false⟩ (str " a@b.com")).1.correctionType = none := by
  decide

theorem DOMAIN_TYPOS_vals_no_space :
    ∀ p ∈ DOMAIN_TYPOS, ∀ x ∈ p.2, isSpaceChar x = false := by decide

theorem AUSTRALIAN_TLDS_vals_no_space :
    ∀ p ∈ AUSTRALIAN_TLDS, ∀ x ∈ p.2, isSpaceChar x = false := by decide

theorem correctDomainTypos_no_space {dom : JStr}
    (hd : ∀ x ∈ dom, isSpaceChar x = false) :
    ∀ x ∈ (correctDomainTypos dom).2, isSpaceChar x = false := by
  unfold correctDomainTypos
  cases hf : DOMAIN_TYPOS.find? (fun p => p.1 == dom) with
  | none => simpa using hd
  | some p =>
    intro x hx
    exact DOMAIN_TYPOS_vals_no_space p (List.mem_of_find?_eq_some hf) x hx

theorem correctAustralianTLD_no_space {dom : JStr}
    (hd : ∀ x ∈ dom, isSpaceChar x = false) :
    ∀ x ∈ (correctAustralianTLD dom).2, isSpaceChar x = false := by
  unfold correctAustralianTLD
  cases hf : AUSTRALIAN_TLDS.find? (fun p => p.1.isSuffixOf dom) with
  | none => simpa using hd
  | some p =>
    intro x hx
    rcases List.mem_append.mp hx with h1 | h1
    · exact hd x (List.take_subset _ _ h1)
    · exact AUSTRALIAN_TLDS_vals_no_space p (List.mem_of_find?_eq_some hf) x h1

theorem mem_headI_splitOnChar {sep : Char} {l : JStr} {x : Char}
    (hx : x ∈ (splitOnChar sep l).headI) : x ∈ l := by
  cases hs : splitOnChar sep l with
  | nil => exact absurd hs (splitOnChar_ne_nil sep l)
  | cons a t =>
    rw [hs] at hx
    exact mem_of_mem_splitOnChar (by rw [hs]; exact List.mem_cons_self a t) hx

theorem no_space_append_at {a b : JStr} (ha : ∀ x ∈ a, isSpaceChar x = false)
    (hb : ∀ x ∈ b, isSpaceChar x = false) :
    ∀ x ∈ a ++ '@' :: b, isSpaceChar x = false := by
  intro x hx
  rcases List.mem_append.mp hx with h1 | h1
  · exact ha x h1
  · rcases List.mem_cons.mp h1 with h2 | h2
    · subst h2; decide
    · exact hb x h2

theorem correctEmailTypos_email_no_space (cfg : Config) (email : JStr) :
    ∀ x ∈ (correctEmailTypos cfg email).1.email, isSpaceChar x = false := by
  cases email with
  | nil => intro x hx; exact absurd hx (List.not_mem_nil x)
  | cons c cs =>
    have hns : ∀ x ∈ removeSpaces (jsLower (jsTrim (c :: cs))), isSpaceChar x = false :=
      fun x hx => removeSpaces_no_space hx
    rcases hsp : splitOnChar '@' (removeSpaces (jsLower (jsTrim (c :: cs))))
      with _ | ⟨lp, _ | ⟨dom, _ | ⟨y, rest⟩⟩⟩
    · exact absurd hsp (splitOnChar_ne_nil _ _)
    · intro x hx
      simp only [correctEmailTypos, List.isEmpty_cons, Bool.false_eq_true, if_false,
        hsp] at hx
      exact hns x hx
    · have hlp : ∀ x ∈ lp, isSpaceChar x = false := fun x hx =>
        hns x (mem_of_mem_splitOnChar (by rw [hsp]; exact List.mem_cons_self _ _) hx)
      have hdom : ∀ x ∈ dom, isSpaceChar x = false := fun x hx =>
        hns x (mem_of_mem_splitOnChar
          (by rw [hsp]; exact List.mem_cons_of_mem _ (List.mem_cons_self _ _)) hx)
      have hheadI : ∀ x ∈ (splitOnChar '+' lp).headI, isSpaceChar x = false :=
        fun x hx => hlp x (mem_headI_splitOnChar hx)
      have hgm : ∀ y ∈ str "gmail.com", isSpaceChar y = false := by decide
      intro x hx
      simp only [correctEmailTypos, List.isEmpty_cons, Bool.false_eq_true, if_false,
        hsp] at hx
      repeat' split at hx
      all_goals
        first
        | exact hns x hx
        | exact no_space_append_at hlp
            (correctAustralianTLD_no_space (correctDomainTypos_no_space hdom)) x hx
        | exact no_space_append_at hlp (correctAustralianTLD_no_space hdom) x hx
        | exact no_space_append_at hheadI hgm x hx
        | exact no_space_append_at hlp (correctDomainTypos_no_space hdom) x hx
    · intro x hx
      simp only [correctEmailTypos, List.isEmpty_cons, Bool.false_eq_true, if_false,
        hsp] at hx
      exact hns x hx

theorem correctEmailTypos_corrected_of_space (cfg : Config) (email : JStr)
    (h : removeSpaces (jsLower (jsTrim email)) ≠ jsLower (jsTrim email)) :
    (correctEmailTypos cfg email).1.corrected = true := by
  cases email with
  | nil => exact absurd rfl h
  | cons c cs =>
    have hb : (removeSpaces (jsLower (jsTrim (c :: cs)))
        != jsLower (jsTrim (c :: cs))) = true := bne_iff_ne.mpr h
    rcases hsp : splitOnChar '@' (removeSpaces (jsLower (jsTrim (c :: cs))))
      with _ | ⟨lp, _ | ⟨dom, _ | ⟨y, rest⟩⟩⟩
    · exact absurd hsp (splitOnChar_ne_nil _ _)
    · simp [correctEmailTypos, hsp, hb]
    · simp only [correctEmailTypos, List.isEmpty_cons, Bool.false_eq_true, if_false, hsp]
      repeat' split
      all_goals simp_all
    · simp [correctEmailTypos, hsp, hb]

theorem correctEmailTypos_type_of_no_space (cfg : Config) (email : JStr)
    (h : removeSpaces (jsLower (jsTrim email)) = jsLower (jsTrim email)) :
    (correctEmailTypos cfg email).1.correctionType ≠ some "whitespace" := by
  cases email with
  | nil => simp [correctEmailTypos]
  | cons c cs =>
    have hb : (removeSpaces (jsLower (jsTrim (c :: cs)))
        != jsLower (jsTrim (c :: cs))) = false := by
      simp [h]
    rcases hsp : splitOnChar '@' (removeSpaces (jsLower (jsTrim (c :: cs))))
      with _ | ⟨lp, _ | ⟨dom, _ | ⟨y, rest⟩⟩⟩
    · exact absurd hsp (splitOnChar_ne_nil _ _)
    · simp [correctEmailTypos, hsp, hb]
    · simp only [correctEmailTypos, List.isEmpty_cons, Bool.false_eq_true, if_false, hsp]
      repeat' split
      all_goals simp_all
    · simp [correctEmailTypos, hsp, hb]

/-- C3 (amended): the corrector removes all whitespace from the email it
returns; it reports a whitespace correction only when whitespace remains
after the initial `trim()` — an input whose whitespace is only leading or
trailing is changed without `corrected = true` or
`correctionType = whitespace` being reported. -/
theorem correctEmailTypos_whitespace_amended (cfg : Config) (email : JStr) :
    (∀ x ∈ (correctEmailTypos cfg email).1.email, isSpaceChar x = false) ∧
    (removeSpaces (jsLower (jsTrim email)) ≠ jsLower (jsTrim email) →
      (correctEmailTypos cfg email).1.corrected = true) ∧
    (removeSpaces (jsLower (jsTrim email)) = jsLower (jsTrim email) →
      (correctEmailTypos cfg email).1.correctionType ≠ some "whitespace") :=
  ⟨correctEmailTypos_email_no_space cfg email,
   fun h => correctEmailTypos_corrected_of_space cfg email h,
   fun h => correctEmailTypos_type_of_no_space cfg email h⟩

/-- Witness for the amended C3: interior whitespace (`"a @gmail.com"`) is
reported as a correction. -/
theorem correctEmailTypos_whitespace_amended_witness :
    removeSpaces (jsLower (jsTrim (str "a @gmail.com")))
      ≠ jsLower (jsTrim (str "a @gmail.com")) ∧
    (correctEmailTypos ⟨false, true, true, false⟩ (str "a @gmail.com")).1.corrected = true :=
  ⟨by decide,
   (correctEmailTypos_whitespace_amended ⟨false, true, true, false⟩
      (str "a @gmail.com")).2.1 (by decide)⟩

theorem checkWithZeroBounce_state_mono (cfg : Config) (st : ServiceState)
    (email : JStr) (net : ZBNet) :
    (checkWithZeroBounce cfg st email net).state.validDomains = st.validDomains ∧
    st.knownValidEmails ⊆ (checkWithZeroBounce cfg st email net).state.knownValidEmails := by
  simp only [checkWithZeroBounce]
  repeat' split
  all_goals
    first
    | exact ⟨rfl, fun x hx => hx⟩
    | exact ⟨rfl, setAdd_subset _ _⟩

theorem checkWithZeroBounce_state_lower (cfg : Config) (st : ServiceState)
    (email : JStr) (net : ZBNet)
    (h : ∀ x ∈ st.knownValidEmails, jsLower x = x) :
    ∀ x ∈ (checkWithZeroBounce cfg st email net).state.knownValidEmails,
      jsLower x = x := by
  simp only [checkWithZeroBounce]
  repeat' split
  all_goals
    first
    | exact h
    | (intro x hx
       rcases mem_setAdd hx with h2 | h2
       · subst h2; exact jsLower_idem email
       · exact h x h2)

theorem validateEmail_state_mono (cfg : Config) (st : ServiceState)
    (email : JStr) (net : ZBNet) :
    (validateEmail cfg st email net).state.validDomains = st.validDomains ∧
    st.knownValidEmails ⊆ (validateEmail cfg st email net).state.knownValidEmails := by
  simp only [validateEmail]
  repeat' split
  all_goals
    first
    | exact ⟨rfl, fun x hx => hx⟩
    | exact checkWithZeroBounce_state_mono _ _ _ _

theorem validateEmail_state_lower (cfg : Config) (st : ServiceState)
    (email : JStr) (net : ZBNet)
    (hk : ∀ x ∈ st.knownValidEmails, jsLower x = x) :
    ∀ x ∈ (validateEmail cfg st email net).state.knownValidEmails, jsLower x = x := by
  simp only [validateEmail]
  repeat' split
  all_goals
    first
    | exact hk
    | exact checkWithZeroBounce_state_lower _ _ _ _ hk

theorem foldl_setAdd_lower (rows : List JStr) (acc : List JStr)
    (hacc : ∀ x ∈ acc, jsLower x = x) :
    ∀ x ∈ rows.foldl
        (fun a d => if d.isEmpty then a else setAdd (jsLower (jsTrim d)) a) acc,
      jsLower x = x := by
  induction rows generalizing acc with
  | nil => simpa using hacc
  | cons d rest ih =>
    simp only [List.foldl_cons]
    apply ih
    by_cases hd : d.isEmpty = true
    · simpa [hd] using hacc
    · simp only [hd, if_false, Bool.false_eq_true]
      intro x hx
      rcases mem_setAdd hx with h2 | h2
      · subst h2; exact jsLower_idem _
      · exact hacc x h2

theorem jsLower_isEmpty (l : JStr) : (jsLower l).isEmpty = l.isEmpty := by
  cases l <;> rfl

theorem isValidDomain_jsLower (st : ServiceState) (e : JStr) :
    isValidDomain st (jsLower e) = isValidDomain st e := by
  unfold isValidDomain extractDomainFromEmail
  rw [splitOnChar_at_jsLower]
  cases splitOnChar '@' e with
  | nil => rfl
  | cons a t =>
    cases t with
    | nil => rfl
    | cons d t2 =>
      cases t2 with
      | nil =>
        simp only [List.map_cons, List.map_nil]
        rw [jsLower_isEmpty, jsLower_idem]
      | cons y t3 => rfl

/-- C8: the two lookup sets only grow across a `validateEmail` call (the
domain set is untouched, the known-valid set is only inserted into);
lower-cased storage is preserved by the pipeline and established by the
CSV loaders (which trim and lower-case every cell, with seeds already
lower-case); and both membership tests lower-case their argument, making
membership case-insensitive. -/
theorem lookup_sets_invariant (cfg : Config) (st : ServiceState)
    (email : JStr) (net : ZBNet) :
    ((validateEmail cfg st email net).state.validDomains = st.validDomains ∧
     st.knownValidEmails ⊆ (validateEmail cfg st email net).state.knownValidEmails) ∧
    ((∀ x ∈ st.validDomains, jsLower x = x) →
     (∀ x ∈ st.knownValidEmails, jsLower x = x) →
     (∀ x ∈ (validateEmail cfg st email net).state.validDomains, jsLower x = x) ∧
     (∀ x ∈ (validateEmail cfg st email net).state.knownValidEmails, jsLower x = x)) ∧
    (∀ rows, ∀ x ∈ loadValidDomains rows, jsLower x = x) ∧
    (∀ rows, ∀ x ∈ loadValidatedEmails rows, jsLower x = x) ∧
    (∀ e, isKnownValidEmail st (jsLower e) = isKnownValidEmail st e) ∧
    (∀ e, isValidDomain st (jsLower e) = isValidDomain st e) := by
  refine ⟨validateEmail_state_mono cfg st email net, ?_, ?_, ?_, ?_, ?_⟩
  · intro hd hk
    refine ⟨?_, validateEmail_state_lower cfg st email net hk⟩
    intro x hx
    rw [(validateEmail_state_mono cfg st email net).1] at hx
    exact hd x hx
  · intro rows
    exact foldl_setAdd_lower rows seedDomains (by decide)
  · intro rows
    exact foldl_setAdd_lower rows [] (by intro x hx; exact absurd hx (List.not_mem_nil x))
  · intro e
    unfold isKnownValidEmail
    rw [jsLower_idem]
  · exact isValidDomain_jsLower st

/-- Witness for C8: running the pipeline with ZeroBounce answering
`valid` grows the known-valid set while keeping every element
lower-case. -/
theorem lookup_sets_invariant_witness :
    ∀ x ∈ (validateEmail ⟨true, true, true, true⟩ ⟨seedDomains, []⟩
        (str "X@gmail.com") (Except.ok ⟨"valid", none⟩)).state.knownValidEmails,
      jsLower x = x :=
  ((lookup_sets_invariant ⟨true, true, true, true⟩ ⟨seedDomains, []⟩
      (str "X@gmail.com") (Except.ok ⟨"valid", none⟩)).2.1
    (by decide) (by decide)).2

end Unmessy
